import Mathlib

/-!
Verification development for the libfds flash data storage engine
(fds.cpp / fds.hpp, configuration fds_config_template.h).

The embedding models the byte-addressed flash region used by the store
as a function from addresses to byte values, and each C function of the
library as a Lean function from store states to a status paired with a
new store state.  The configuration constants are those of the shipped
configuration template: FDS_NUM_RECORDS = 4, FDS_NUM_PAGES = 4,
FDS_MAX_DATABYTES = 256, and a BSP page size of 1024 bytes.  The region
is placed at byte address 0, so page p occupies addresses
p * 1024 .. p * 1024 + 1023, mirroring the BSP address arithmetic.

External collaborators (declared out of scope by the specification) are
modelled by their contracts: the CRC-8 primitive is a streaming
most-significant-bit-first CRC-8 with polynomial 0x07 and initial value
0, which satisfies the contract of section 4.2 of the specification (a
span checks to zero exactly when its final byte equals the CRC of the
preceding bytes); the flash driver programs byte buffers at the write
pointer and can be made to fail through an explicit list of programmed
outcomes carried in the state; wrapInc x i m is (x + i) % m.
-/

/-- Status codes of libfds, from fdsStatus_t in fds.hpp. -/
inductive fdsStatus
  | FDS_OK
  | FDS_ERR
  | FDS_EREADY
  | FDS_ESIZE
  | FDS_EEINVAL
  | FDS_EFLASH
  | FDS_ECRC
  | FDS_EDATA
deriving DecidableEq

open fdsStatus

/-- One round of the most-significant-bit-first CRC-8 with polynomial 0x07. -/
def crcRound (s : Nat) : Nat :=
  if 128 ≤ s then (s * 2) % 256 ^^^ 7 else (s * 2) % 256

/-- Feed one byte into the streaming CRC-8 state: eight rounds. -/
def crcByte (s b : Nat) : Nat :=
  crcRound (crcRound (crcRound (crcRound
    (crcRound (crcRound (crcRound (crcRound (s ^^^ b))))))))

/-- Feed a list of bytes into the streaming CRC-8 state.  The function
is written with the primitive list recursor and an explicit case split
on each intermediate state; the split is redundant (both branches
continue with that state) but forces every intermediate state to a
numeral, which keeps kernel evaluation of long spans shallow and
cheap. -/
def crcBytes (s : Nat) (l : List Nat) : Nat :=
  @List.rec Nat (fun _ => Nat → Nat)
    (fun s => s)
    (fun b _ ih s =>
      let c := crcByte s b
      if c = 0 then ih 0 else ih c)
    l s

/-- Streaming CRC-8 over n bytes of flash starting at address a, the
model of calling the crc8 calc method on a flash pointer and a length.
Written with the primitive recursor on n for cheap kernel evaluation,
with the same redundant forcing split as crcBytes. -/
def crcSpan (fl : Nat → Nat) (a n s : Nat) : Nat :=
  @Nat.rec (fun _ => Nat → Nat → Nat)
    (fun _ s => s)
    (fun _ ih a s =>
      let c := crcByte s (fl a)
      if c = 0 then ih (a + 1) 0 else ih (a + 1) c)
    n a s

/-- Read n consecutive bytes from flash starting at address a. -/
def readBytes (fl : Nat → Nat) (a n : Nat) : List Nat :=
  (List.range n).map fun i => fl (a + i)

/-- Little-endian base 256 packing of a byte buffer into one natural
number; each entry is truncated to a byte as a uint8_t buffer would
be.  Byte k of the packing is the k-th list entry modulo 256. -/
def packBytes (l : List Nat) : Nat :=
  @List.rec Nat (fun _ => Nat) 0 (fun b _ ih => b % 256 + 256 * ih) l

/-- Program a buffer of bytes into flash at address a (bspFlashProg).
The buffer is carried as its base 256 packing, from which byte x - a is
recovered by shifting and truncating. -/
def progBytes (fl : Nat → Nat) (a : Nat) (d : List Nat) : Nat → Nat :=
  let n := d.length
  let enc := packBytes d
  fun x => if a ≤ x ∧ x < a + n then enc / 256 ^ (x - a) % 256 else fl x

/-- Erase one 1024-byte page of flash (bspFlashErasePage). -/
def erasePage (fl : Nat → Nat) (p : Nat) : Nat → Nat :=
  fun x => if p * 1024 ≤ x ∧ x < p * 1024 + 1024 then 255 else fl x

/-- State of the Fds singleton together with the flash region and the
driver failure oracle.  The pRecords table maps a record id to the flash
address of its current record, with 0 standing for the null pointer as
in the C code (no record ever starts at address 0, the first page header
occupies addresses 0 to 3).  The bspFail list yields, per flash program
operation, whether the driver reports a failure; an exhausted list means
the driver keeps succeeding. -/
structure St where
  flash : Nat → Nat
  initDone : Bool
  pRecords : Nat → Nat
  pWrite : Nat
  bspFail : List Bool

/-- Update the in-RAM index entry of one record id. -/
def setRec (s : St) (uid a : Nat) : St :=
  { s with pRecords := fun i => if i = uid then a else s.pRecords i }

/-- Consume the next flash driver outcome. -/
def popBsp (s : St) : Bool × St :=
  match s.bspFail with
  | [] => (false, s)
  | b :: r => (b, { s with bspFail := r })

/-- Model of Fds writeToFlash: program the buffer at the write pointer,
advance the write pointer by the corresponding number of 16-bit words,
and optionally verify that the programmed span CRCs to zero. -/
def writeToFlash (s : St) (d : List Nat) (checkCrc : Bool) : fdsStatus × St :=
  let pb := popBsp s
  if pb.1 then (FDS_EFLASH, pb.2)
  else
    let s1 : St :=
      { pb.2 with
        flash := progBytes pb.2.flash pb.2.pWrite d
        pWrite := pb.2.pWrite + 2 * (d.length / 2) }
    if checkCrc then
      if crcSpan s1.flash pb.2.pWrite d.length 0 = 0 then (FDS_OK, s1)
      else (FDS_ECRC, s1)
    else (FDS_OK, s1)

/-- Model of Fds getPageid: the 16-bit page id stored in the page header
of the given page, or 0xFFFF when the header CRC fails. -/
def getPageid (fl : Nat → Nat) (page : Nat) : Nat :=
  if crcSpan fl (page * 1024) 4 0 = 0 then
    fl (page * 1024 + 1) + 256 * fl (page * 1024 + 2)
  else 65535

/-- Bytes of a page header carrying the given 16-bit id, as built by
writePageHdr: magic 0xAA, little-endian id, CRC over the first three
bytes. -/
def pageHdrBytes (id : Nat) : List Nat :=
  [170, id % 256, id / 256 % 256] ++ [crcBytes 0 [170, id % 256, id / 256 % 256]]

/-- Model of Fds writePageHdr: move the write pointer to the start of
the given page and program a page header there with CRC verification. -/
def writePageHdr (s : St) (page id : Nat) : fdsStatus × St :=
  writeToFlash { s with pWrite := page * 1024 } (pageHdrBytes id) true

/-- Little-endian 32-bit word formed by four flash bytes (the Raw view
of a data header). -/
def rawWord (fl : Nat → Nat) (a : Nat) : Nat :=
  fl a + 256 * fl (a + 1) + 65536 * fl (a + 2) + 16777216 * fl (a + 3)

/-- On-flash span in bytes of the record whose data header starts at
pData: header plus stored size plus footer, rounded down to even, as
computed by readPage. -/
def recSpan (fl : Nat → Nat) (pData : Nat) : Nat :=
  let t := 4 + (fl (pData + 2) + 256 * fl (pData + 3)) + 2
  if t % 2 ≠ 0 then t - 1 else t

/-- Model of the record walk of Fds readPage over one page.  The fuel
argument only bounds the recursion; the walk of a 1024-byte page visits
at most 170 records since every span is at least 6 bytes, so a fuel of
1024 is never exhausted. -/
def readPageLoop : Nat → Nat → Bool → St → Nat → fdsStatus × St
  | 0, _, _, s, _ => (FDS_OK, s)
  | fuel + 1, page, uwp, s, pData =>
    if pData / 1024 ≠ page then (FDS_OK, s)
    else
      let uid := s.flash (pData + 1)
      let siz := recSpan s.flash pData
      if uid < 4 then
        if crcSpan s.flash pData siz 0 = 0 then
          let magic := s.flash pData
          let s1 := if magic = 85 then setRec s uid pData
                    else if magic = 126 then setRec s uid 0
                    else s
          readPageLoop fuel page uwp s1 (pData + siz)
        else (FDS_ECRC, s)
      else if rawWord s.flash pData = 4294967295 then
        (FDS_OK, if uwp then { s with pWrite := pData } else s)
      else (FDS_EDATA, s)

/-- Model of Fds readPage: walk the records of one page starting just
after the page header, updating the index and possibly the write
pointer. -/
def readPage (s : St) (page : Nat) (uwp : Bool) : fdsStatus × St :=
  readPageLoop 1024 page uwp s (page * 1024 + 4)

/-- Unsigned 16-bit difference of the page id of the successor page and
the page id of the given page, as computed in Fds init. -/
def pageDelta (fl : Nat → Nat) (page : Nat) : Nat :=
  (getPageid fl ((page + 1) % 4) + 65536 - getPageid fl page) % 65536

/-- The page scan loop of Fds init over the remaining page numbers,
threading the update-write-pointer flag exactly as the C loop does. -/
def scanGo : List Nat → Bool → St → fdsStatus × St
  | [], _, s => (FDS_OK, s)
  | p :: rest, uwp, s =>
    let pageId := getPageid s.flash p
    let delta := pageDelta s.flash p
    if pageId = 65535 then scanGo rest uwp s
    else if 0 < delta then
      let r := readPage s p uwp
      if r.1 ≠ FDS_OK then r
      else scanGo rest (if 2 < delta then false else true) r.2
    else (FDS_ERR, s)

/-- The conditional scan of Fds init: when initialization has not been
done yet, clear the index and the write pointer and scan all pages. -/
def initCore (s : St) : fdsStatus × St :=
  if s.initDone then (FDS_OK, s)
  else scanGo [0, 1, 2, 3] true { s with pRecords := fun _ => 0, pWrite := 0 }

/-- Model of Fds init with doReset = false: on a scan failure or when
no write pointer was established the store stays uninitialized. -/
def initNR (s : St) : fdsStatus × St :=
  let c := initCore s
  if c.1 ≠ FDS_OK ∨ c.2.pWrite = 0 then c
  else (FDS_OK, { c.2 with initDone := true })

/-- Model of Fds format: erase every page of the region, write a page
header with id 0 on page 0, then run init without reset. -/
def format (s : St) : fdsStatus × St :=
  let s1 : St :=
    { s with
      initDone := false
      flash := erasePage (erasePage (erasePage (erasePage s.flash 0) 1) 2) 3 }
  let w := writePageHdr s1 0 0
  if w.1 ≠ FDS_OK then w else initNR w.2

/-- Model of Fds init.  With doReset = true, a scan failure or a missing
write pointer triggers format; otherwise the store becomes
initialized. -/
def init (s : St) (doReset : Bool) : fdsStatus × St :=
  if doReset then
    let c := initCore s
    if c.1 ≠ FDS_OK ∨ c.2.pWrite = 0 then format c.2
    else (FDS_OK, { c.2 with initDone := true })
  else initNR s

/-- Lazy initialization performed at the top of the public operations:
a no-op when already initialized, otherwise init with reset allowed. -/
def lazyInit (s : St) : fdsStatus × St :=
  if s.initDone then (FDS_OK, s) else init s true

/-- Model of Fds relocate: copy the record of the given id byte for byte
to the current write pointer with CRC verification; on success the index
entry is set to the write pointer as left by writeToFlash, which the C
code has already advanced past the copied record. -/
def relocate (s : St) (uid : Nat) : fdsStatus × St :=
  let addr := s.pRecords uid
  let sizF := s.flash (addr + 2) + 256 * s.flash (addr + 3)
  let siz := (if sizF % 2 ≠ 0 then sizF - 1 else sizF) + 6
  let w := writeToFlash s (readBytes s.flash addr siz) true
  if w.1 ≠ FDS_OK then w
  else (FDS_OK, setRec w.2 uid w.2.pWrite)

/-- The relocation loop of Fds switchPage over the record ids, skipping
the id being written and empty entries, and relocating entries lying on
the victim page; a relocate failure stops the loop. -/
def relocLoop : List Nat → Nat → Nat → St → fdsStatus × St
  | [], _, _, s => (FDS_OK, s)
  | n :: rest, victim, dataId, s =>
    if n = dataId ∨ s.pRecords n = 0 then relocLoop rest victim dataId s
    else if victim = s.pRecords n / 1024 then
      let r := relocate s n
      if r.1 ≠ FDS_OK then r
      else relocLoop rest victim dataId r.2
    else relocLoop rest victim dataId s

/-- Model of Fds switchPage: check the next page is free, write its page
header with the incremented page id, relocate live records off the
victim page, and erase the victim page.  As in the C code the erase of
the victim page runs even when the relocation loop stopped with an
error, because the break in the C loop only leaves the for loop. -/
def switchPage (s : St) (dataId : Nat) : fdsStatus × St :=
  let page0 := s.pWrite / 1024
  let nextId := (getPageid s.flash page0 + 1) % 65535
  let page1 := (page0 + 1) % 4
  if getPageid s.flash page1 ≠ 65535 then (FDS_ERR, s)
  else
    let w := writePageHdr s page1 nextId
    if w.1 ≠ FDS_OK then w
    else
      let victim := (page1 + 1) % 4
      let r := relocLoop [0, 1, 2, 3] victim dataId w.2
      (r.1, { r.2 with flash := erasePage r.2.flash victim })

/-- Program a sequence of buffers at the write pointer without per-step
CRC checking, stopping at the first driver failure and keeping its
status, as the do-while blocks of Fds write and Fds del do with
breakIfDiverse. -/
def progChain (s : St) : List (List Nat) → fdsStatus × St
  | [] => (FDS_OK, s)
  | b :: r =>
    let w := writeToFlash s b false
    if w.1 ≠ FDS_OK then w else progChain w.2 r

/-- Tail of Fds write after the page fit handling: program the record
buffers, report a driver failure as FDS_EFLASH, CRC the span of len
bytes starting at the captured pStart in place, and only then point the
index entry of uid at pStart. -/
def writeCommit (s0 : St) (uid : Nat) (bufs : List (List Nat))
    (pStart len : Nat) : fdsStatus × St :=
  let pc := progChain s0 bufs
  if pc.1 ≠ FDS_OK then (FDS_EFLASH, pc.2)
  else if crcSpan pc.2.flash pStart len 0 ≠ 0 then (FDS_ECRC, pc.2)
  else (FDS_OK, setRec pc.2 uid pStart)

/-- Model of Fds write.  The local pStart is captured from the entry
state, before lazy initialization and before any page switch, exactly
as in the C code where the declaration initializer runs at function
entry; the readback CRC and the index update use this captured address.
The record bytes are the header, the payload truncated to an even
length, and the footer holding the spare byte and the streamed CRC. -/
def write (s : St) (uid : Nat) (d : List Nat) : fdsStatus × St :=
  let pStart := s.pWrite
  let n := d.length
  if n = 0 ∨ 256 < n then (FDS_ESIZE, s)
  else if 4 ≤ uid then (FDS_EEINVAL, s)
  else
    let li := lazyInit s
    if li.1 ≠ FDS_OK then li
    else
      let hdr := [85, uid, n % 256, n / 256 % 256]
      let nB := if n % 2 ≠ 0 then n - 1 else n
      let spare := if n % 2 ≠ 0 then d.getD (n - 1) 0 else 0
      let crcv := crcByte (crcBytes (crcBytes 0 hdr) (d.take nB)) spare
      let siz := (4 + nB + 2) / 2
      let sw := if li.2.pWrite / 1024 ≠ (li.2.pWrite + 2 * siz) / 1024
                then switchPage li.2 uid else (FDS_OK, li.2)
      if sw.1 ≠ FDS_OK then sw
      else
        writeCommit sw.2 uid
          (hdr :: ((if 0 < nB then [d.take nB] else []) ++ [[spare, crcv]]))
          pStart (2 * siz)

/-- The 16-bit size field of the data header starting at address a. -/
def sizField (fl : Nat → Nat) (a : Nat) : Nat :=
  fl (a + 2) + 256 * fl (a + 3)

/-- Model of Fds read.  The pNull flag models passing a null destination
pointer; the result carries the number of bytes copied, the copied
bytes, and the state as possibly changed by lazy initialization. -/
def Fds.read (s : St) (uid : Nat) (pNull : Bool) (siz : Nat) : Nat × List Nat × St :=
  let li := lazyInit s
  if li.1 ≠ FDS_OK then (0, [], li.2)
  else if 4 ≤ uid ∨ pNull ∨ siz = 0 then (0, [], li.2)
  else if li.2.pRecords uid = 0 then (0, [], li.2)
  else
    let addr := li.2.pRecords uid
    let n := min siz (sizField li.2.flash addr)
    (n, readBytes li.2.flash (addr + 4) n, li.2)

/-- Tail of Fds del: program the two record buffers, keep a driver
failure status as is, CRC the six bytes at the captured pStart in
place, and only then clear the index entry of uid. -/
def delCommit (s0 : St) (uid : Nat) (bufs : List (List Nat))
    (pStart : Nat) : fdsStatus × St :=
  let pc := progChain s0 bufs
  if pc.1 ≠ FDS_OK then pc
  else if crcSpan pc.2.flash pStart 6 0 ≠ 0 then (FDS_ECRC, pc.2)
  else (FDS_OK, setRec pc.2 uid 0)

/-- Model of Fds del.  The local pStart is captured at entry, before
lazy initialization, as in the C code; the uid range check runs only
after lazy initialization.  No page fit check is performed before the
six record bytes are programmed. -/
def del (s : St) (uid : Nat) : fdsStatus × St :=
  let pStart := s.pWrite
  let li := lazyInit s
  if li.1 ≠ FDS_OK then li
  else if 4 ≤ uid then (FDS_EEINVAL, li.2)
  else
    let hdr := [126, uid, 0, 0]
    let crcv := crcByte (crcBytes 0 hdr) 0
    delCommit li.2 uid [hdr, [0, crcv]] pStart

/-- The blank store: flash fully erased, initialization not done, the
write pointer and every index entry null, a driver that always
succeeds.  This is the state of a fresh device before any call. -/
def sBlank : St :=
  { flash := fun _ => 255, initDone := false, pRecords := fun _ => 0,
    pWrite := 0, bspFail := [] }

/-- An initialized store over erased flash with the write pointer just
past the page header of page 0, used to instantiate theorems about
initialized stores. -/
def sInitW : St :=
  { flash := fun _ => 255, initDone := true, pRecords := fun _ => 0,
    pWrite := 4, bspFail := [] }

/-- A payload of 256 zero bytes, the maximum payload size. -/
def z256 : List Nat := List.replicate 256 0

/-- The store right after format of the blank device: page 0 carries a
page header with id 0 and the write pointer sits at address 4. -/
def sI : St := (format sBlank).2

/-- States after one, two and three maximum size writes of record 0:
the three records occupy addresses 4, 266 and 528 of page 0 and the
write pointer ends at 790. -/
def s1w : St := (write sI 0 z256).2

/-- State after the second maximum size write. -/
def s2w : St := (write s1w 0 z256).2

/-- State after the third maximum size write; the next 262-byte record
does not fit before address 1024, so the next write rotates pages. -/
def s3w : St := (write s2w 0 z256).2

/-- State after a fourth maximum size write of the zero payload, the
write that triggers the page rotation. -/
def s4z : St := (write s3w 0 z256).2

/-- The CRC-8 state after the 261 bytes starting at the stale pStart
address 790 in the rotated state: the erased tail of page 0, the fresh
page header of page 1, the new record header, and the first 19 payload
bytes.  The 262nd byte of that stale span is payload byte 19 of the
record written at page 1. -/
def vC : Nat := crcSpan s4z.flash 790 261 0

/-- The crafted payload: 256 bytes, all zero except byte 19 which holds
vC, so that the stale readback span of the rotated write CRCs to
zero. -/
def pv : List Nat := (List.replicate 256 0).set 19 vC

/-- State after writing the crafted payload as the rotation triggering
fourth write. -/
def s4v : St := (write s3w 0 pv).2

/-- State after 126 writes of the two byte payload to record 0 on the
freshly formatted store: each record takes 8 bytes starting at address
4, so the write pointer reaches 1012. -/
def s126 : St := (fun s => (write s 0 [1, 2]).2)^[126] sI

/-- State after the 127th two byte write: the write pointer reaches
1020, leaving only 4 bytes before the end of page 0. -/
def s127 : St := (write s126 0 [1, 2]).2

/-- Whether all n bytes of flash starting at address a read as erased,
written with the primitive recursor on n for cheap kernel
evaluation. -/
def spanErased (fl : Nat → Nat) (a n : Nat) : Bool :=
  @Nat.rec (fun _ => Nat → Bool)
    (fun _ => true)
    (fun _ ih a => if fl a = 255 then ih (a + 1) else false)
    n a

/-- Whether every byte of page p reads as erased. -/
def pageErased (fl : Nat → Nat) (p : Nat) : Bool :=
  spanErased fl (p * 1024) 1024

/-- Flash image for the C9 counterexample: page 0 carries a valid page
header with id 5 followed by a data record for uid 0 of size 0 whose
CRC byte is wrong; page 1 is erased; pages 2 and 3 both carry valid
page headers with the same id 7, so their delta is zero. -/
def flash9 : Nat → Nat := fun a =>
  if a < 4 then (pageHdrBytes 5).getD a 0
  else if a = 4 then 85
  else if 5 ≤ a ∧ a < 10 then 0
  else if 2048 ≤ a ∧ a < 2052 then (pageHdrBytes 7).getD (a - 2048) 0
  else if 3072 ≤ a ∧ a < 3076 then (pageHdrBytes 7).getD (a - 3072) 0
  else 255

/-- Uninitialized store over the flash9 image. -/
def s9 : St :=
  { flash := flash9, initDone := false, pRecords := fun _ => 0,
    pWrite := 0, bspFail := [] }

/-- Flash image whose pages 0 and 1 both carry valid page headers with
id 7 and whose other pages are erased: the very first page the scan
visits exhibits a zero delta. -/
def flash0w : Nat → Nat := fun a =>
  if a < 4 then (pageHdrBytes 7).getD a 0
  else if 1024 ≤ a ∧ a < 1028 then (pageHdrBytes 7).getD (a - 1024) 0
  else 255

/-- Uninitialized store over the flash0w image. -/
def s0w : St :=
  { flash := flash0w, initDone := false, pRecords := fun _ => 0,
    pWrite := 0, bspFail := [] }

theorem writeToFlash_keep (s : St) (d : List Nat) (c : Bool) :
    ((writeToFlash s d c).2).pRecords = s.pRecords ∧
    ((writeToFlash s d c).2).initDone = s.initDone := by
  unfold writeToFlash popBsp
  cases hb : s.bspFail with
  | nil => simp; split <;> (try split) <;> simp
  | cons b r => cases b <;> (simp; try (split <;> (try split) <;> simp))

theorem readPageLoop_keep (fuel : Nat) :
    ∀ (page : Nat) (uwp : Bool) (s : St) (pData : Nat),
      ((readPageLoop fuel page uwp s pData).2).flash = s.flash ∧
      ((readPageLoop fuel page uwp s pData).2).initDone = s.initDone ∧
      ((readPageLoop fuel page uwp s pData).2).bspFail = s.bspFail := by
  induction fuel with
  | zero => intro page uwp s pData; simp [readPageLoop]
  | succ n ih =>
    intro page uwp s pData
    rw [readPageLoop]
    split
    · simp
    · dsimp only
      split
      · split
        · split <;> (try split) <;> simp [ih, setRec]
        · simp
      · split
        · split <;> simp
        · simp

theorem readPage_keep (s : St) (page : Nat) (uwp : Bool) :
    ((readPage s page uwp).2).flash = s.flash ∧
    ((readPage s page uwp).2).initDone = s.initDone ∧
    ((readPage s page uwp).2).bspFail = s.bspFail :=
  readPageLoop_keep 1024 page uwp s (page * 1024 + 4)

theorem scanGo_keep (l : List Nat) :
    ∀ (uwp : Bool) (s : St),
      ((scanGo l uwp s).2).flash = s.flash ∧
      ((scanGo l uwp s).2).initDone = s.initDone := by
  induction l with
  | nil => intro uwp s; simp [scanGo]
  | cons p rest ih =>
    intro uwp s
    rw [scanGo]
    try dsimp only
    split
    · exact ih uwp s
    · split
      · split
        · exact ⟨(readPage_keep s p uwp).1, (readPage_keep s p uwp).2.1⟩
        · have h1 := readPage_keep s p uwp
          have h2 := ih (if 2 < pageDelta s.flash p then false else true) (readPage s p uwp).2
          exact ⟨h2.1.trans h1.1, h2.2.trans h1.2.1⟩
      · simp

theorem initCore_keep (s : St) :
    ((initCore s).2).flash = s.flash ∧ ((initCore s).2).initDone = s.initDone := by
  unfold initCore
  split
  · simp
  · exact scanGo_keep [0, 1, 2, 3] true _

theorem initCore_not_done (s : St) (h : s.initDone = false) :
    initCore s =
      scanGo [0, 1, 2, 3] true { s with pRecords := fun _ => 0, pWrite := 0 } := by
  unfold initCore
  rw [h]
  simp

theorem scanGo_stop (p : Nat) (rest : List Nat) (uwp : Bool) (s : St)
    (h1 : getPageid s.flash p ≠ 65535) (h2 : pageDelta s.flash p = 0) :
    scanGo (p :: rest) uwp s = (FDS_ERR, s) := by
  rw [scanGo]
  simp [h1, h2]

/-- Claim C9, amended: if the wrap order scan of init reaches a page
whose stored sequence number is not the erased sentinel 0xFFFF and
whose delta to the next page is 0, with no earlier page having failed,
then init fails with FDS_ERR; with doReset = false the store remains
uninitialized and no flash byte is changed, in particular no page is
erased.  The reach hypothesis states that the conditional scan of init
unfolds to the scan loop arriving at page p in walk state s. -/
theorem fds_c9_err_on_first_delta_zero (s0 s : St) (uwp : Bool) (p : Nat) (rest : List Nat)
    (h0 : s0.initDone = false)
    (hreach : initCore s0 = scanGo (p :: rest) uwp s)
    (h1 : getPageid s.flash p ≠ 65535)
    (h2 : pageDelta s.flash p = 0) :
    init s0 false = (FDS_ERR, s) ∧ s.initDone = false ∧ s.flash = s0.flash := by
  have hic : initCore s0 = (FDS_ERR, s) := hreach.trans (scanGo_stop p rest uwp s h1 h2)
  have keep := initCore_keep s0
  rw [hic] at keep
  refine ⟨?_, ?_, keep.1⟩
  · simp [init, initNR, hic]
  · rw [keep.2, h0]

theorem writeToFlash_ne_esize (s : St) (d : List Nat) (c : Bool) :
    (writeToFlash s d c).1 ≠ FDS_ESIZE := by
  unfold writeToFlash popBsp
  cases hb : s.bspFail with
  | nil => simp; split <;> (try split) <;> simp
  | cons b r => cases b <;> (simp; try (split <;> (try split) <;> simp))

theorem readPageLoop_ne_esize (fuel : Nat) :
    ∀ (page : Nat) (uwp : Bool) (s : St) (pData : Nat),
      (readPageLoop fuel page uwp s pData).1 ≠ FDS_ESIZE := by
  induction fuel with
  | zero => intro page uwp s pData; simp [readPageLoop]
  | succ n ih =>
    intro page uwp s pData
    rw [readPageLoop]
    split
    · simp
    · dsimp only
      split
      · split
        · split <;> (try split) <;> apply ih
        · simp
      · split <;> simp

theorem scanGo_ne_esize (l : List Nat) :
    ∀ (uwp : Bool) (s : St), (scanGo l uwp s).1 ≠ FDS_ESIZE := by
  induction l with
  | nil => intro uwp s; simp [scanGo]
  | cons p rest ih =>
    intro uwp s
    rw [scanGo]
    try dsimp only
    split
    · exact ih uwp s
    · split
      · split
        · exact readPageLoop_ne_esize 1024 p uwp s (p * 1024 + 4)
        · exact ih _ _
      · simp

theorem initCore_ne_esize (s : St) : (initCore s).1 ≠ FDS_ESIZE := by
  unfold initCore
  split
  · simp
  · exact scanGo_ne_esize [0, 1, 2, 3] true _

theorem initNR_ne_esize (s : St) : (initNR s).1 ≠ FDS_ESIZE := by
  unfold initNR
  try dsimp only
  split
  · exact initCore_ne_esize s
  · simp

theorem format_ne_esize (s : St) : (format s).1 ≠ FDS_ESIZE := by
  unfold format writePageHdr
  try dsimp only
  split
  · apply writeToFlash_ne_esize
  · apply initNR_ne_esize

theorem init_ne_esize (s : St) (b : Bool) : (init s b).1 ≠ FDS_ESIZE := by
  unfold init
  split
  · dsimp only
    split
    · apply format_ne_esize
    · simp
  · apply initNR_ne_esize

theorem lazyInit_ne_esize (s : St) : (lazyInit s).1 ≠ FDS_ESIZE := by
  unfold lazyInit
  split
  · simp
  · apply init_ne_esize

theorem writePageHdr_ne_esize (s : St) (p i : Nat) : (writePageHdr s p i).1 ≠ FDS_ESIZE := by
  unfold writePageHdr
  apply writeToFlash_ne_esize

theorem relocate_ne_esize (s : St) (n : Nat) : (relocate s n).1 ≠ FDS_ESIZE := by
  unfold relocate
  try dsimp only
  split <;> split <;> first | apply writeToFlash_ne_esize | simp

theorem relocLoop_ne_esize (l : List Nat) :
    ∀ (victim dataId : Nat) (s : St), (relocLoop l victim dataId s).1 ≠ FDS_ESIZE := by
  induction l with
  | nil => intro v d s; simp [relocLoop]
  | cons n rest ih =>
    intro v d s
    rw [relocLoop]
    split
    · exact ih v d s
    · split
      · dsimp only
        split
        · apply relocate_ne_esize
        · exact ih v d _
      · exact ih v d s

theorem switchPage_ne_esize (s : St) (dataId : Nat) : (switchPage s dataId).1 ≠ FDS_ESIZE := by
  unfold switchPage
  try dsimp only
  split
  · simp
  · split
    · apply writePageHdr_ne_esize
    · exact relocLoop_ne_esize [0, 1, 2, 3] _ _ _

theorem progChain_ne_esize (l : List (List Nat)) :
    ∀ (s : St), (progChain s l).1 ≠ FDS_ESIZE := by
  induction l with
  | nil => intro s; simp [progChain]
  | cons b r ih =>
    intro s
    rw [progChain]
    try dsimp only
    split
    · apply writeToFlash_ne_esize
    · exact ih _

theorem progChain_keep (l : List (List Nat)) :
    ∀ (s : St), ((progChain s l).2).pRecords = s.pRecords ∧
      ((progChain s l).2).initDone = s.initDone := by
  induction l with
  | nil => intro s; simp [progChain]
  | cons b r ih =>
    intro s
    rw [progChain]
    try dsimp only
    split
    · exact writeToFlash_keep s b false
    · exact ⟨(ih _).1.trans (writeToFlash_keep s b false).1,
        (ih _).2.trans (writeToFlash_keep s b false).2⟩


theorem lazyInit_done (s : St) (h : s.initDone = true) : lazyInit s = (FDS_OK, s) := by
  simp [lazyInit, h]

theorem relocate_pRec (s : St) (n m : Nat) (h : m ≠ n) :
    ((relocate s n).2).pRecords m = s.pRecords m := by
  unfold relocate
  try dsimp only
  split <;> split <;>
    first
      | exact congrFun (writeToFlash_keep _ _ _).1 m
      | (simp only [setRec]
         rw [if_neg h]
         exact congrFun (writeToFlash_keep _ _ _).1 m)

theorem relocLoop_pRec (l : List Nat) :
    ∀ (victim dataId : Nat) (s : St),
      ((relocLoop l victim dataId s).2).pRecords dataId = s.pRecords dataId := by
  induction l with
  | nil => intro v dId s; simp [relocLoop]
  | cons n rest ih =>
    intro v dId s
    rw [relocLoop]
    split
    · exact ih v dId s
    · rename_i hcond
      have hne : dId ≠ n := fun he => hcond (Or.inl he.symm)
      split
      · try dsimp only
        split
        · exact relocate_pRec s n dId hne
        · exact (ih v dId _).trans (relocate_pRec s n dId hne)
      · exact ih v dId s

theorem writePageHdr_pRec (s : St) (p i : Nat) :
    ((writePageHdr s p i).2).pRecords = s.pRecords := by
  unfold writePageHdr
  exact (writeToFlash_keep _ _ _).1

theorem switchPage_pRec (s : St) (dataId : Nat) :
    ((switchPage s dataId).2).pRecords dataId = s.pRecords dataId := by
  unfold switchPage
  try dsimp only
  split
  · rfl
  · split
    · exact congrFun (writePageHdr_pRec s _ _) dataId
    · try dsimp only
      exact (relocLoop_pRec [0, 1, 2, 3] _ dataId _).trans
        (congrFun (writePageHdr_pRec s _ _) dataId)

theorem writeCommit_cases (s0 : St) (uid : Nat) (bufs : List (List Nat)) (p l : Nat) :
    (writeCommit s0 uid bufs p l).1 = FDS_OK ∨
    ((writeCommit s0 uid bufs p l).2).pRecords = s0.pRecords := by
  unfold writeCommit
  try dsimp only
  split
  · exact Or.inr (progChain_keep bufs s0).1
  · split
    · exact Or.inr (progChain_keep bufs s0).1
    · exact Or.inl rfl

theorem delCommit_cases (s0 : St) (uid : Nat) (bufs : List (List Nat)) (p : Nat) :
    (delCommit s0 uid bufs p).1 = FDS_OK ∨
    ((delCommit s0 uid bufs p).2).pRecords = s0.pRecords := by
  unfold delCommit
  try dsimp only
  split
  · exact Or.inr (progChain_keep bufs s0).1
  · split
    · exact Or.inr (progChain_keep bufs s0).1
    · exact Or.inl rfl

theorem write_ok_or_pRec (s : St) (uid : Nat) (d : List Nat) (h : s.initDone = true) :
    (write s uid d).1 = FDS_OK ∨ ((write s uid d).2).pRecords uid = s.pRecords uid := by
  unfold write
  rw [lazyInit_done s h]
  try dsimp only
  generalize hG : switchPage s uid = swv
  have hswP : swv.2.pRecords uid = s.pRecords uid := hG ▸ switchPage_pRec s uid
  repeat' split
  all_goals
    first
      | (rename_i hc; exact absurd rfl hc)
      | exact Or.inr rfl
      | exact Or.inr hswP
      | exact (writeCommit_cases _ uid _ _ _).imp id
          (fun hp => (congrFun hp uid).trans hswP)
      | exact (writeCommit_cases _ uid _ _ _).imp id (fun hp => congrFun hp uid)

theorem del_ok_or_pRec (s : St) (uid : Nat) (h : s.initDone = true) :
    (del s uid).1 = FDS_OK ∨ ((del s uid).2).pRecords uid = s.pRecords uid := by
  unfold del
  rw [lazyInit_done s h]
  try dsimp only
  repeat' split
  all_goals
    first
      | (rename_i hc; exact absurd rfl hc)
      | exact Or.inr rfl
      | exact (delCommit_cases _ uid _ _).imp id (fun hp => congrFun hp uid)

theorem writeCommit_ne_esize (s0 : St) (uid : Nat) (bufs : List (List Nat)) (p l : Nat) :
    (writeCommit s0 uid bufs p l).1 ≠ FDS_ESIZE := by
  unfold writeCommit
  try dsimp only
  split <;> (try split) <;> simp

theorem delCommit_ne_esize (s0 : St) (uid : Nat) (bufs : List (List Nat)) (p : Nat) :
    (delCommit s0 uid bufs p).1 ≠ FDS_ESIZE := by
  unfold delCommit
  try dsimp only
  split <;> (try split) <;> first | exact progChain_ne_esize bufs s0 | simp

theorem write_ne_esize (s : St) (uid : Nat) (d : List Nat)
    (h : ¬(d.length = 0 ∨ 256 < d.length)) :
    (write s uid d).1 ≠ FDS_ESIZE := by
  unfold write
  try dsimp only
  rw [if_neg h]
  generalize hG : switchPage (lazyInit s).2 uid = swv
  have hswNE : swv.1 ≠ FDS_ESIZE := hG ▸ switchPage_ne_esize _ uid
  repeat' split
  all_goals
    first
      | (rename_i hc; exact absurd rfl hc)
      | exact lazyInit_ne_esize s
      | exact hswNE
      | exact writeCommit_ne_esize _ uid _ _ _
      | simp

/-- Claim C7: write returns FDS_ESIZE exactly when the payload length
is 0 or exceeds FDS_MAX_DATABYTES = 256; for an in range length it
returns FDS_EEINVAL when the uid is at least FDS_NUM_RECORDS = 4; both
rejections happen before lazy initialization and before any flash
access, leaving the whole state unchanged. -/
theorem fds_c7_write_entry_rejects (s : St) (uid : Nat) (d : List Nat) :
    ((write s uid d).1 = FDS_ESIZE ↔ (d.length = 0 ∨ 256 < d.length)) ∧
    ((d.length = 0 ∨ 256 < d.length) → write s uid d = (FDS_ESIZE, s)) ∧
    (d.length ≠ 0 → d.length ≤ 256 → 4 ≤ uid → write s uid d = (FDS_EEINVAL, s)) := by
  refine ⟨⟨fun hr => ?_, fun hr => ?_⟩, fun hr => ?_, fun h1 h2 h3 => ?_⟩
  · by_contra hn
    exact write_ne_esize s uid d hn hr
  · unfold write
    try dsimp only
    rw [if_pos hr]
  · unfold write
    try dsimp only
    rw [if_pos hr]
  · have hn : ¬(d.length = 0 ∨ 256 < d.length) := by omega
    unfold write
    try dsimp only
    rw [if_neg hn, if_pos h3]

/-- Claim C5, amended: on an initialized store, del with an out of
range uid returns FDS_EEINVAL and changes nothing at all, neither the
flash nor any in-RAM state.  On an uninitialized store the C code runs
lazy initialization with reset permission before the uid check, so
flash may be erased and programmed there; see the counterexample. -/
theorem fds_c5_del_einval_initialized (s : St) (uid : Nat) (h : s.initDone = true) (hu : 4 ≤ uid) :
    del s uid = (FDS_EEINVAL, s) := by
  unfold del
  rw [lazyInit_done s h]
  simp [hu]

/-- Claim C6: read never returns an error status; it returns 0 bytes
copied whenever the uid is out of range, the destination is null, the
requested size is 0, lazy initialization fails, or no record is indexed
for the uid after lazy initialization, and otherwise it returns the
minimum of the requested size and the stored record size. -/
theorem fds_c6_read_zero_or_min (s : St) (uid : Nat) (pNull : Bool) (siz : Nat) :
    (4 ≤ uid → (Fds.read s uid pNull siz).1 = 0) ∧
    (pNull = true → (Fds.read s uid pNull siz).1 = 0) ∧
    (siz = 0 → (Fds.read s uid pNull siz).1 = 0) ∧
    ((lazyInit s).1 ≠ FDS_OK → (Fds.read s uid pNull siz).1 = 0) ∧
    ((lazyInit s).1 = FDS_OK → ((lazyInit s).2).pRecords uid = 0 →
      (Fds.read s uid pNull siz).1 = 0) ∧
    ((lazyInit s).1 = FDS_OK → uid < 4 → pNull = false → siz ≠ 0 →
      ((lazyInit s).2).pRecords uid ≠ 0 →
      (Fds.read s uid pNull siz).1 =
        min siz (sizField ((lazyInit s).2).flash (((lazyInit s).2).pRecords uid))) := by
  refine ⟨fun h1 => ?_, fun h1 => ?_, fun h1 => ?_, fun h1 => ?_,
    fun h1 h2 => ?_, fun h1 h2 h3 h4 h5 => ?_⟩ <;>
    unfold Fds.read <;> try dsimp only
  · split
    · rfl
    · rw [if_pos (Or.inl h1)]
  · split
    · rfl
    · rw [if_pos (Or.inr (Or.inl h1))]
  · split
    · rfl
    · rw [if_pos (Or.inr (Or.inr h1))]
  · rw [if_pos h1]
  · rw [if_neg (by simp [h1]), if_pos h2]
    try (split <;> rfl)
  · rw [if_neg (by simp [h1])]
    rw [if_neg (by simp [h3]; omega)]
    rw [if_neg h5]
    try rfl

/-- Claim C8: when the page scanner reads a candidate data header lying
on the scanned page whose uid field is at least FDS_NUM_RECORDS, it
stops with FDS_OK if the whole 32-bit header word reads as all ones,
moving the write pointer to that position exactly when the update flag
is set, and stops with FDS_EDATA otherwise; when the uid field is in
range and the even truncated span does not CRC to zero it stops with
FDS_ECRC. -/
theorem fds_c8_scanner_cases (fuel page pData : Nat) (uwp : Bool) (s : St)
    (hpage : pData / 1024 = page) :
    ((4 ≤ s.flash (pData + 1) →
       (rawWord s.flash pData = 4294967295 →
         readPageLoop (fuel + 1) page uwp s pData =
           (FDS_OK, if uwp then { s with pWrite := pData } else s)) ∧
       (rawWord s.flash pData ≠ 4294967295 →
         readPageLoop (fuel + 1) page uwp s pData = (FDS_EDATA, s))) ∧
     (s.flash (pData + 1) < 4 →
       crcSpan s.flash pData (recSpan s.flash pData) 0 ≠ 0 →
       readPageLoop (fuel + 1) page uwp s pData = (FDS_ECRC, s))) := by
  constructor
  · intro hu
    constructor
    · intro hraw
      rw [readPageLoop]
      rw [if_neg (by simp [hpage])]
      try dsimp only
      rw [if_neg (by omega), if_pos hraw]
    · intro hraw
      rw [readPageLoop]
      rw [if_neg (by simp [hpage])]
      try dsimp only
      rw [if_neg (by omega), if_neg hraw]
  · intro hu hcrc
    rw [readPageLoop]
    rw [if_neg (by simp [hpage])]
    try dsimp only
    rw [if_pos hu, if_neg hcrc]

/-- Claim C10: on an initialized store, whenever write or del returns a
status other than FDS_OK, the in-RAM index entry of the written or
deleted uid is unchanged; the entry is assigned only on the FDS_OK
path. -/
theorem fds_c10_index_unchanged_on_error (s : St) (uid : Nat) (d : List Nat)
    (h : s.initDone = true) :
    ((write s uid d).1 ≠ FDS_OK →
      ((write s uid d).2).pRecords uid = s.pRecords uid) ∧
    ((del s uid).1 ≠ FDS_OK →
      ((del s uid).2).pRecords uid = s.pRecords uid) :=
  ⟨fun hw => (write_ok_or_pRec s uid d h).resolve_left hw,
   fun hd => (del_ok_or_pRec s uid h).resolve_left hd⟩

set_option maxRecDepth 20000 in
/-- Claim C5, counterexample: on the blank uninitialized store, del
with the out of range uid 4 does return FDS_EEINVAL, but flash is
touched before the rejection: the lazy initialization invoked at the
top of del formats the region and programs a page header, so flash byte
0 changes from the erased value 255 to the page magic 170. -/
theorem fds_c5_cex :
    (del sBlank 4).1 = FDS_EEINVAL ∧ sBlank.flash 0 = 255 ∧
    ((del sBlank 4).2).flash 0 = 170 := by
  decide

set_option maxRecDepth 20000 in
/-- Claim C9, counterexample: in the s9 flash image, pages 2 and 3
carry equal sequence numbers, so a page with a non sentinel sequence
number and delta 0 exists, yet init with doReset = false fails with
FDS_ECRC, not with FDS_ERR, because the scan already fails on the
corrupt record of page 0 before reaching the delta 0 pair. -/
theorem fds_c9_cex :
    getPageid s9.flash 2 ≠ 65535 ∧ pageDelta s9.flash 2 = 0 ∧
    (init s9 false).1 = FDS_ECRC ∧ (init s9 false).1 ≠ FDS_ERR := by
  decide

set_option maxRecDepth 40000 in
/-- Claim C1: the round trip fails on the code.  Starting from a
formatted store, three maximum size writes fill page 0 to address 790;
a fourth write of the crafted 256-byte payload pv triggers the page
rotation and returns FDS_OK, because the readback CRC is computed at
the stale pre-rotation pStart address 790 and the crafted payload byte
19 makes that stale span CRC to zero.  The index entry of uid 0 is then
set to 790, which holds erased bytes, so the immediately following read
returns 256 bytes whose first byte is 255 while the first payload byte
is 0: the returned bytes differ from the written payload. -/
theorem fds_c1_roundtrip_bug :
    pv.length = 256 ∧
    (write s3w 0 pv).1 = FDS_OK ∧
    (Fds.read s4v 0 false 256).1 = 256 ∧
    (Fds.read s4v 0 false 256).2.1.getD 0 0 = 255 ∧
    pv.getD 0 0 = 0 := by
  decide

set_option maxRecDepth 40000 in
/-- Claim C2: the rotation triggering write fails on the code.  After
three maximum size writes of the zero payload, the fourth such write
rotates to page 1, programs the record there, but computes the readback
CRC at the stale pre-rotation pStart address 790 and returns FDS_ECRC
instead of FDS_OK, leaving the index entry of uid 0 at the third record
address 528.  Moreover pages 2 and 3 both read as fully erased after
the rotation, not exactly one page. -/
theorem fds_c2_rotation_bug :
    s3w.pWrite = 790 ∧
    (write s3w 0 z256).1 = FDS_ECRC ∧
    s4z.pWrite = 1290 ∧
    s4z.pRecords 0 = 528 ∧
    pageErased s4z.flash 2 = true ∧
    pageErased s4z.flash 3 = true ∧
    pageErased s4z.flash 0 = false ∧
    pageErased s4z.flash 1 = false := by
  decide

set_option maxRecDepth 40000 in
/-- Claim C3: index fidelity fails on the code.  Every operation in the
sequence format, three zero payload maximum size writes, and the
crafted payload write returns FDS_OK, yet in the final state the index
entry of uid 0 is 790 and the flash byte there is the erased value 255,
not the data record magic 85: the entry does not point at a valid DATA
record. -/
theorem fds_c3_index_fidelity_bug :
    (format sBlank).1 = FDS_OK ∧
    (write sI 0 z256).1 = FDS_OK ∧
    (write s1w 0 z256).1 = FDS_OK ∧
    (write s2w 0 z256).1 = FDS_OK ∧
    (write s3w 0 pv).1 = FDS_OK ∧
    s4v.pRecords 0 = 790 ∧
    s4v.flash 790 = 255 := by
  decide

set_option maxRecDepth 40000 in
/-- Claim C4: a record can cross a page boundary.  After format and 127
writes of a two byte payload the write pointer sits at 1020, four bytes
before the end of page 0.  del performs no page fit check, returns
FDS_OK, and programs the six byte DEL record across the boundary: its
header occupies 1020..1023 on page 0 and its footer occupies 1024..1025
on page 1, overwriting the first bytes of the erased spare page, whose
byte 1024 changes from 255 to 0. -/
theorem fds_c4_del_page_cross_bug :
    (write s126 0 [1, 2]).1 = FDS_OK ∧
    s127.pWrite = 1020 ∧
    (del s127 0).1 = FDS_OK ∧
    s127.flash 1024 = 255 ∧
    ((del s127 0).2).flash 1024 = 0 ∧
    1020 / 1024 = 0 ∧ 1025 / 1024 = 1 := by
  decide

theorem fds_c5_del_einval_initialized_w :
    del sInitW 7 = (FDS_EEINVAL, sInitW) :=
  fds_c5_del_einval_initialized sInitW 7 rfl (by decide)

theorem fds_c6_read_zero_or_min_w : (Fds.read sBlank 9 false 5).1 = 0 :=
  (fds_c6_read_zero_or_min sBlank 9 false 5).1 (by decide)

theorem fds_c7_write_entry_rejects_w :
    write sInitW 7 [1] = (FDS_EEINVAL, sInitW) :=
  (fds_c7_write_entry_rejects sInitW 7 [1]).2.2 (by decide) (by decide) (by decide)

theorem fds_c8_scanner_cases_w :
    readPageLoop 1 0 true sBlank 4 = (FDS_OK, { sBlank with pWrite := 4 }) :=
  ((fds_c8_scanner_cases 0 0 4 true sBlank (by decide)).1 (by decide)).1 (by decide)

set_option maxRecDepth 20000 in
theorem fds_c9_err_on_first_delta_zero_w :
    init s0w false =
      (FDS_ERR, { s0w with pRecords := fun _ => 0, pWrite := 0 }) ∧
    s0w.initDone = false :=
  have h := fds_c9_err_on_first_delta_zero s0w
    { s0w with pRecords := fun _ => 0, pWrite := 0 }
    true 0 [1, 2, 3] rfl (initCore_not_done s0w rfl) (by decide) (by decide)
  ⟨h.1, h.2.1⟩

theorem fds_c10_index_unchanged_on_error_w :
    ((write sInitW 0 []).2).pRecords 0 = sInitW.pRecords 0 :=
  (fds_c10_index_unchanged_on_error sInitW 0 [] rfl).1 (by decide)
